import Mathlib

/-!
Shallow embedding of the `pdf_search` backend
(`src/app/backend/database.py`, `src/app/backend/indexer.py`,
`src/app/backend/main.py`).

The SQLite store is modelled as lists of rows together with the
auto-increment counters (the tables use `AUTOINCREMENT`, so ids keep
growing even across `DELETE FROM`).  A sqlite connection buffers writes
and makes them visible only at `conn.commit()`; a connection closed
without a commit rolls its transaction back.  Operations that can fail
mid-transaction therefore return the *committed* store: on an injected
failure the committed store is the one from before the transaction.

Python strings are modelled as Lean `String`s; the Python primitives
`str.strip`, `str.lower`, `str.split()`, `str.startswith` and substring
containment (`in`) are modelled character-list-wise (`pyStrip`,
`pyLower`, `pySplit`, `pyStartsWith`, `hasSubstr`), matching Python's
per-code-point semantics for the ASCII data handled here.

Filesystem and PDF effects (hashing, pdfplumber extraction, OCR, sqlite
I/O errors) are injected as explicit inputs: each file carries its hash
result and the outcome of each page's extraction, so that every control
path of the source is represented.
-/

/-- A row of the `pdf_files` table (`database.py`, `init_db`).  The
`indexed_at` timestamp column is omitted: no operation reads it. -/
structure FileRecord where
  id : Nat
  filename : String
  fileHash : String
deriving DecidableEq

/-- A row of the `pdf_pages` table. -/
structure PageRecord where
  id : Nat
  fileId : Nat
  pageNumber : Nat
  content : String
deriving DecidableEq

/-- A row of the `pdf_pages_fts` full-text table, keyed by `rowid`. -/
structure FtsEntry where
  rowid : Nat
  content : String
deriving DecidableEq

/-- The committed state of the SQLite database.  `nextFileId` and
`nextPageId` model the `AUTOINCREMENT` counters of the two tables. -/
structure Store where
  files : List FileRecord
  pages : List PageRecord
  fts : List FtsEntry
  nextFileId : Nat
  nextPageId : Nat
deriving DecidableEq

def emptyStore : Store := ⟨[], [], [], 1, 1⟩

/-- `file_already_indexed(filename, file_hash)` (`database.py` 43–52):
`SELECT id FROM pdf_files WHERE filename = ? AND file_hash = ?` is
non-empty. -/
def fileAlreadyIndexed (s : Store) (filename fileHash : String) : Bool :=
  s.files.any (fun f => f.filename == filename && f.fileHash == fileHash)

/-- `store_file(filename, file_hash)` (`database.py` 55–65): one INSERT
into `pdf_files`, committed, returning `lastrowid`.  An I/O failure of
this single-statement transaction is injected by the caller
(`FileBody.storeFileErr` below) and leaves the store unchanged. -/
def storeFile (s : Store) (filename fileHash : String) : Nat × Store :=
  (s.nextFileId,
   { s with files := s.files ++ [⟨s.nextFileId, filename, fileHash⟩],
            nextFileId := s.nextFileId + 1 })

/-- `store_page(file_id, page_number, content)` (`database.py` 68–82):
INSERT into `pdf_pages`, then INSERT into `pdf_pages_fts` with
`rowid = lastrowid`, then a single `conn.commit()`.  `failPages` /
`failFts` inject a sqlite error raised by the respective INSERT; in
either case the connection is closed by the `finally` block without a
commit, so the transaction rolls back and the committed store is the
input store.  Returns the committed store and the raised error, if
any. -/
def storePage (s : Store) (fileId pageNumber : Nat) (content : String)
    (failPages failFts : Option String) : Store × Option String :=
  match failPages with
  | some msg => (s, some msg)
  | none =>
    let pageId := s.nextPageId
    let s1 : Store :=
      { s with pages := s.pages ++ [⟨pageId, fileId, pageNumber, content⟩],
               nextPageId := pageId + 1 }
    match failFts with
    | some msg => (s, some msg)
    | none => ({ s1 with fts := s1.fts ++ [⟨pageId, content⟩] }, none)

/-- `store_page` on the success path (both INSERTs succeed). -/
def storePageOk (s : Store) (fileId pageNumber : Nat) (content : String) : Store :=
  (storePage s fileId pageNumber content none none).1

/-- `delete_file_by_name(filename)` (`database.py` 111–130): look up the
first `pdf_files` row with this filename; if none, no-op; otherwise
delete the fts entries of its pages, its pages, and the file row, in one
committed transaction. -/
def deleteFileByName (s : Store) (filename : String) : Store :=
  match s.files.find? (fun f => f.filename == filename) with
  | none => s
  | some f =>
    let pageIds := (s.pages.filter (fun p => p.fileId == f.id)).map (fun p => p.id)
    { s with
      fts := s.fts.filter (fun e => !(pageIds.contains e.rowid)),
      pages := s.pages.filter (fun p => !(p.fileId == f.id)),
      files := s.files.filter (fun g => !(g.id == f.id)) }

/-- `clear_index()` (`database.py` 133–143): DELETE FROM all three
tables.  `AUTOINCREMENT` sequences survive a DELETE, so the counters are
kept. -/
def clearIndex (s : Store) : Store :=
  { s with files := [], pages := [], fts := [] }

/-- `get_indexed_filenames()` (`database.py` 155–161): the set of
filenames of all `pdf_files` rows. -/
def getIndexedFilenames (s : Store) : Finset String :=
  (s.files.map (fun f => f.filename)).toFinset

/-- Number of fts entries whose `rowid` is `i`. -/
def ftsCount (s : Store) (i : Nat) : Nat :=
  (s.fts.filter (fun e => e.rowid == i)).length

/-- The spec's full-text invariant: every page row has exactly one fts
entry keyed to its id, and every fts entry belongs to some page row. -/
def ftsPaired (s : Store) : Prop :=
  (∀ p ∈ s.pages, ftsCount s p.id = 1) ∧
  (∀ e ∈ s.fts, ∃ p ∈ s.pages, p.id = e.rowid)

/-- Well-formedness delivered by `AUTOINCREMENT`: all page ids and fts
rowids are below the page counter, file ids below the file counter, and
page ids are pairwise distinct. -/
def Store.WF (s : Store) : Prop :=
  (∀ p ∈ s.pages, p.id < s.nextPageId) ∧
  (∀ e ∈ s.fts, e.rowid < s.nextPageId) ∧
  (∀ f ∈ s.files, f.id < s.nextFileId) ∧
  s.pages.Pairwise (fun p q => p.id ≠ q.id)

/-! ### Python string primitives, character-list-wise -/

/-- Python `str.strip()`: drop leading and trailing whitespace. -/
def pyStrip (s : String) : String :=
  ⟨((s.data.dropWhile Char.isWhitespace).reverse.dropWhile Char.isWhitespace).reverse⟩

/-- Python `str.lower()` (ASCII-faithful). -/
def pyLower (s : String) : String :=
  ⟨s.data.map Char.toLower⟩

/-- Split a character list at whitespace characters, keeping empty
segments. -/
def splitWsAux : List Char → List Char → List (List Char)
  | [], acc => [acc.reverse]
  | c :: cs, acc =>
    if c.isWhitespace then acc.reverse :: splitWsAux cs []
    else splitWsAux cs (c :: acc)

/-- Python `str.split()` with no argument: split on whitespace runs,
dropping empty pieces. -/
def pySplit (s : String) : List String :=
  ((splitWsAux s.data []).filter (fun l => !l.isEmpty)).map (fun l => ⟨l⟩)

/-- Python `str.startswith(pre)`. -/
def pyStartsWith (s pre : String) : Bool :=
  pre.data.isPrefixOf s.data

/-- Python substring containment `needle in hay` on character lists. -/
def hasSubstr : List Char → List Char → Bool
  | needle, [] => needle.isEmpty
  | needle, c :: cs => needle.isPrefixOf (c :: cs) || hasSubstr needle cs

/-! ### indexer.py -/

def MIN_TEXT_LENGTH : Nat := 50

/-- `_extract_text_pdfplumber(page)` (`indexer.py` 73–75):
`(page.extract_text() or "").strip()`.  `none` models `extract_text()`
returning `None`. -/
def extractTextPdfplumber (raw : Option String) : String :=
  pyStrip (raw.getD "")

/-- The OCR-fallback decision of `_index_single_file` (`indexer.py`
101–103): OCR runs iff the stripped native text is shorter than
`MIN_TEXT_LENGTH`. -/
def ocrNeeded (raw : Option String) : Bool :=
  (extractTextPdfplumber raw).length < MIN_TEXT_LENGTH

/-- The text a page contributes after `indexer.py` 101–103:
`ocrResult` models the (already stripped) return of
`_ocr_page_image`. -/
def pageText (raw : Option String) (ocrResult : String) : String :=
  let t := extractTextPdfplumber raw
  if t.length < MIN_TEXT_LENGTH then ocrResult else t

/-- Whether `indexer.py` 104–105 stores the page (`if text:`). -/
def pageStored (raw : Option String) (ocrResult : String) : Bool :=
  !(pageText raw ocrResult).isEmpty

/-- The outcome of processing one page inside the `with pdfplumber.open`
loop of `_index_single_file`:
* `text native ocr storeFail` — extraction succeeded; `native` is the
  raw `extract_text()` result, `ocr` the OCR result (consulted only when
  needed), and `storeFail` injects a `store_page` error;
* `err msg` — extraction / OCR for this page raised `msg` (this also
  models `pdfplumber.open` itself failing, as a first page step). -/
inductive PageStep
  | text (native : Option String) (ocr : String) (storeFail : Option String)
  | err (msg : String)
deriving DecidableEq

/-- A page step that completes without an exception. -/
def goodStep : PageStep → Bool
  | .text _ _ none => true
  | _ => false

/-- Whether a page step results in a stored page. -/
def stepStores : PageStep → Bool
  | .text native ocr _ => pageStored native ocr
  | .err _ => false

/-- The exception, if any, that processing this page step raises inside
the `with pdfplumber.open` loop of `_index_single_file`: an
extraction/OCR error raises its message, and a `store_page` failure
raises its message — but only when the page text is non-empty, since
`store_page` is only called then (`if text:`). -/
def abortStep : PageStep → Option String
  | .err msg => some msg
  | .text native ocr (some msg) =>
    if (pageText native ocr).isEmpty then none else some msg
  | .text _ _ none => none

/-- The message of the first exception the page loop raises on these
steps, if any. -/
def pagesFailure : List PageStep → Option String
  | [] => none
  | st :: rest =>
    match abortStep st with
    | some msg => some msg
    | none => pagesFailure rest

/-- The page loop of `_index_single_file` (`indexer.py` 98–108) together
with its `except` clause: pages are processed in order; the first
exception (extraction error or `store_page` error) appends
`"<rel_path>: <msg>"` to the run's error list and ends the loop; pages
already committed stay committed. -/
def indexPages (s : Store) (errors : List String) (relPath : String)
    (fileId : Nat) (pageNumber : Nat) : List PageStep → Store × List String
  | [] => (s, errors)
  | .err msg :: _ => (s, errors ++ [relPath ++ ": " ++ msg])
  | .text native ocr storeFail :: rest =>
    let t := pageText native ocr
    if t.isEmpty then indexPages s errors relPath fileId (pageNumber + 1) rest
    else
      match storeFail with
      | some msg => (s, errors ++ [relPath ++ ": " ++ msg])
      | none =>
        indexPages (storePageOk s fileId pageNumber t) errors relPath fileId
          (pageNumber + 1) rest

/-- What happens after the skip check of `_index_single_file`:
either `store_file` raises (escaping the function — there is no handler
around it), or it succeeds and the page loop runs. -/
inductive FileBody
  | storeFileErr (msg : String)
  | pages (steps : List PageStep)
deriving DecidableEq

instance {ε α : Type} [DecidableEq ε] [DecidableEq α] :
    DecidableEq (Except ε α) := fun x y =>
  match x, y with
  | .ok a, .ok b =>
    if h : a = b then isTrue (by rw [h]) else isFalse (by simp [h])
  | .ok _, .error _ => isFalse (by simp)
  | .error _, .ok _ => isFalse (by simp)
  | .error a, .error b =>
    if h : a = b then isTrue (by rw [h]) else isFalse (by simp [h])

/-- One file as seen by `_run_indexing`: its path relative to the active
root (`pdf_path.relative_to(_current_dir)`), its base name
(`pdf_path.name`), the result of `_sha256` (an exception here escapes
`_index_single_file`), and the rest of the processing. -/
structure FileInput where
  relPath : String
  name : String
  hashResult : Except String String
  body : FileBody
deriving DecidableEq

/-- `_index_single_file(pdf_path)` (`indexer.py` 87–108).  Returns
`.error msg` when an exception escapes the function (hashing or
`store_file` failure — both occur before the `try` block), otherwise the
store and error list after the file. -/
def indexSingleFile (s : Store) (errors : List String) (f : FileInput) :
    Except String (Store × List String) :=
  match f.hashResult with
  | .error msg => .error msg
  | .ok fileHash =>
    if fileAlreadyIndexed s f.relPath fileHash then .ok (s, errors)
    else
      match f.body with
      | .storeFileErr msg => .error msg
      | .pages steps =>
        let r := storeFile s f.relPath fileHash
        .ok (indexPages r.2 errors f.relPath r.1 1 steps)

/-- How `_run_indexing` observes a failure of `_index_single_file` on a
file: `escaped` — the exception escapes the function (hashing or
`store_file` failure, both before its `try` block) and is caught by the
run loop's own handler; `handled` — the `except` inside
`_index_single_file` catches it. -/
inductive FileFailure
  | escaped (msg : String)
  | handled (msg : String)
deriving DecidableEq

/-- Which failure, if any, `_index_single_file` on `f` over store `s`
produces, and where it is caught (derived observation over the same
injected outcomes, used to state how errors are recorded). -/
def fileFailure (s : Store) (f : FileInput) : Option FileFailure :=
  match f.hashResult with
  | .error msg => some (.escaped msg)
  | .ok fileHash =>
    if fileAlreadyIndexed s f.relPath fileHash then none
    else
      match f.body with
      | .storeFileErr msg => some (.escaped msg)
      | .pages steps =>
        match pagesFailure steps with
        | none => none
        | some msg => some (.handled msg)

/-- The `IndexingStatus` dataclass (`indexer.py` 52–58). -/
structure IndexingStatus where
  is_running : Bool
  total_files : Nat
  processed_files : Nat
  current_file : String
  errors : List String
deriving DecidableEq

/-- The module-level `status = IndexingStatus()` initial value. -/
def initStatus : IndexingStatus := ⟨false, 0, 0, "", []⟩

/-- One iteration of the `for pdf_path in pdf_files` loop of
`_run_indexing` (`indexer.py` 122–129): set `current_file` to the base
name, run `_index_single_file`, on an escaping exception append
`"<pdf_path.name>: <msg>"`, and bump `processed_files` either way. -/
def runFileStep (acc : Store × IndexingStatus) (f : FileInput) :
    Store × IndexingStatus :=
  let s := acc.1
  let st := { acc.2 with current_file := f.name }
  match indexSingleFile s st.errors f with
  | .ok r =>
    (r.1, { st with errors := r.2, processed_files := st.processed_files + 1 })
  | .error msg =>
    (s, { st with errors := st.errors ++ [f.name ++ ": " ++ msg],
                  processed_files := st.processed_files + 1 })

/-- `_run_indexing(full_reindex)` (`indexer.py` 111–131): clear errors,
optionally clear the index, record the total, process each listed file,
then clear `current_file`.  `files` is the sorted list produced by
`sorted(_current_dir.rglob("*.pdf"))`. -/
def runIndexing (s : Store) (st : IndexingStatus) (files : List FileInput)
    (fullReindex : Bool) : Store × IndexingStatus :=
  let st0 := { st with errors := ([] : List String) }
  let s0 := if fullReindex then clearIndex s else s
  let st1 := { st0 with total_files := files.length, processed_files := 0 }
  let r := files.foldl runFileStep (s0, st1)
  (r.1, { r.2 with current_file := "" })

/-- The pure set comparison inside `check_for_changes` (`indexer.py`
134–144), on the caller-supplied disk and indexed path sets. -/
structure ChangeReport where
  has_changes : Bool
  new_files : Nat
  deleted_files : Nat
deriving DecidableEq

def checkForChanges (disk indexed : Finset String) : ChangeReport :=
  let newCount := (disk \ indexed).card
  let deletedCount := (indexed \ disk).card
  ⟨newCount != 0 || deletedCount != 0, newCount, deletedCount⟩

/-! ### Scope manager (`indexer.py` 25–49) -/

def DATA_DIR : String := "/data"

/-- `set_current_dir(path)` (`indexer.py` 38–49).  `resolvedTarget`
models `str((DATA_DIR / path).resolve())` — path resolution is a
filesystem effect, supplied as an oracle (with `/data` assumed not to be
a symlink, so `str(DATA_DIR.resolve()) = "/data"`); `targetIsDir` models
`target.is_dir()`.  Returns the new `_current_dir` or the `ValueError`
message. -/
def setCurrentDir (path : String) (resolvedTarget : String)
    (targetIsDir : Bool) : Except String String :=
  if path = "" then .ok DATA_DIR
  else if !(pyStartsWith resolvedTarget DATA_DIR) then
    .error "Path must be within /data"
  else if !targetIsDir then .error ("Directory does not exist: " ++ path)
  else .ok resolvedTarget

/-- Modelled from the spec, for comparison with the source's check:
"fails with `ScopeError` if the resolved absolute path is not equal to
or under the base directory" — the resolved path is the base directory
itself or strictly below it. -/
def specUnderBase (t : String) : Bool :=
  t == DATA_DIR || pyStartsWith t (DATA_DIR ++ "/")

/-! ### Concurrency guard (`indexer.py` 147–159, `main.py` 59–64)

`run_indexing_async` checks `_lock.locked()` and returns immediately
when the lock is held; otherwise it acquires the lock (no `await` point
separates the check from the acquisition when the lock is free, so
check-and-acquire is atomic under asyncio's cooperative scheduling),
sets `is_running`, runs `_run_indexing` in an executor, and finally
clears `is_running` and releases the lock.  The guard is modelled as a
state machine: `start` is the check-and-acquire step of a
`run_indexing_async` invocation, `finish` the release step; the indexing
work happens between the two events.  `activeRuns` counts invocations
between their `start` and `finish`, i.e. holders of `_lock`. -/

structure GuardState where
  activeRuns : Nat
  status : IndexingStatus
deriving DecidableEq

inductive GuardEvent
  | start (fullReindex : Bool)
  | finish
deriving DecidableEq

def guardStep (g : GuardState) : GuardEvent → GuardState
  | .start _ =>
    if g.activeRuns != 0 then g
    else { activeRuns := 1, status := { g.status with is_running := true } }
  | .finish =>
    { activeRuns := g.activeRuns - 1,
      status := { g.status with is_running := false } }

def initGuard : GuardState := ⟨0, initStatus⟩

/-! ### main.py -/

/-- `DPI = 150`; `SCALE = DPI / 72` (`main.py` 30–31), exact rational in
place of the Python float. -/
def DPI : ℚ := 150

def SCALE : ℚ := DPI / 72

/-- A word returned by pdfplumber's `extract_words()`: its text and its
text-layer bounding box in point units. -/
structure Word where
  text : String
  x0 : ℚ
  top : ℚ
  x1 : ℚ
  bottom : ℚ
deriving DecidableEq

structure HRect where
  x0 : ℚ
  y0 : ℚ
  x1 : ℚ
  y1 : ℚ
deriving DecidableEq

/-- `query_terms` of `_render_page` (`main.py` 162):
`[t.lower() for t in query.split() if len(t) >= 2]`. -/
def queryTerms (query : String) : List String :=
  ((pySplit query).filter (fun t => decide (2 ≤ t.length))).map pyLower

/-- The match test of `_render_page` (`main.py` 166–167):
`any(term in w["text"].lower() for term in query_terms)`. -/
def wordMatches (terms : List String) (wordText : String) : Bool :=
  terms.any (fun term => hasSubstr term.data (pyLower wordText).data)

/-- The padded rectangle drawn for a matching word (`main.py`
168–172). -/
def highlightRect (w : Word) : HRect :=
  ⟨w.x0 * SCALE - 2, w.top * SCALE - 2, w.x1 * SCALE + 2, w.bottom * SCALE + 2⟩

/-- The rectangles drawn by `_render_page` (`main.py` 157–172) for the
given (stripped) query over the words extracted from the page; empty
when the query is empty (`if query:`). -/
def highlightRects (query : String) (words : List Word) : List HRect :=
  if query = "" then []
  else (words.filter (fun w => wordMatches (queryTerms query) w.text)).map
    highlightRect

/-- `changes_detected_endpoint` (`main.py` 130–134): while a run is
active, report no changes without consulting disk or store. -/
def changesDetectedEndpoint (isRunning : Bool) (disk indexed : Finset String) :
    ChangeReport :=
  if isRunning then ⟨false, 0, 0⟩ else checkForChanges disk indexed

/-! ### Helper lemmas -/

lemma isPrefixOf_self_chars (l : List Char) : l.isPrefixOf l = true := by
  induction l with
  | nil => rfl
  | cons c cs ih => simp [List.isPrefixOf, ih]

lemma isPrefixOf_trans_chars : ∀ {l1 l2 l3 : List Char},
    l1.isPrefixOf l2 = true → l2.isPrefixOf l3 = true → l1.isPrefixOf l3 = true := by
  intro l1
  induction l1 with
  | nil => intro l2 l3 _ _; cases l3 <;> rfl
  | cons a as ih =>
    intro l2 l3 h12 h23
    cases l2 with
    | nil => simp [List.isPrefixOf] at h12
    | cons b bs =>
      cases l3 with
      | nil => simp [List.isPrefixOf] at h23
      | cons c cs =>
        simp only [List.isPrefixOf, Bool.and_eq_true, beq_iff_eq] at h12 h23 ⊢
        exact ⟨h12.1.trans h23.1, ih h12.2 h23.2⟩

/-! ### C7 -/

/-- C7: `check_for_changes`'s pure set comparison returns
`new_files = |disk − indexed|`, `deleted_files = |indexed − disk|`, and
`has_changes` true iff either count is nonzero (equivalently, iff the two
sets differ); on disk `{a.pdf, b.pdf}` against indexed `{a.pdf, c.pdf}`
it yields `newCount = 1`, `deletedCount = 1`, `hasChanges = true`. -/
theorem checkForChanges_counts :
    (∀ disk indexed : Finset String,
      (checkForChanges disk indexed).new_files
          = (disk.filter (fun p => p ∉ indexed)).card ∧
      (checkForChanges disk indexed).deleted_files
          = (indexed.filter (fun p => p ∉ disk)).card ∧
      ((checkForChanges disk indexed).has_changes = true ↔
        (checkForChanges disk indexed).new_files ≠ 0 ∨
          (checkForChanges disk indexed).deleted_files ≠ 0) ∧
      ((checkForChanges disk indexed).has_changes = false ↔ disk = indexed)) ∧
    checkForChanges {"a.pdf", "b.pdf"} {"a.pdf", "c.pdf"}
      = ⟨true, 1, 1⟩ := by
  constructor
  · intro disk indexed
    refine ⟨?_, ?_, ?_, ?_⟩
    · simp [checkForChanges, Finset.sdiff_eq_filter]
    · simp [checkForChanges, Finset.sdiff_eq_filter]
    · simp [checkForChanges]
    · simp only [checkForChanges, Bool.or_eq_false_iff, bne_eq_false_iff_eq,
        Finset.card_eq_zero, Finset.sdiff_eq_empty_iff_subset]
      constructor
      · rintro ⟨h1, h2⟩; exact Finset.Subset.antisymm h1 h2
      · rintro rfl; exact ⟨Finset.Subset.refl _, Finset.Subset.refl _⟩
  · decide

/-! ### C10 -/

/-- C10: while `status.is_running` is true, the `/changes-detected`
endpoint returns `has_changes = false`, `new_files = 0`,
`deleted_files = 0`, independently of the disk and indexed sets (the
comparison in `check_for_changes` is never consulted). -/
theorem changesDetected_suppressed_when_running :
    ∀ disk indexed : Finset String,
      changesDetectedEndpoint true disk indexed = ⟨false, 0, 0⟩ := by
  intro disk indexed
  rfl

/-! ### C2 -/

/-- C2 counterexample: the containment check of `set_current_dir` is the
string test `str(target).startswith("/data")`, so a path such as
`"../database"`, whose resolved form `str(("/data/../database")
.resolve()) = "/database"` lies outside the base directory, is accepted
whenever `/database` exists as a directory — the claimed "fails for
every path whose resolved absolute form lies outside the base
directory" is false. -/
theorem setCurrentDir_prefix_escape_cex :
    setCurrentDir "../database" "/database" true = .ok "/database" ∧
    specUnderBase "/database" = false := by
  constructor
  · decide
  · decide

/-- C2 amended: `set_current_dir` raises iff the supplied path is
nonempty and either the *string form* of the resolved path does not
start with `"/data"` (a weaker test than being equal to or under the
base directory: sibling paths such as `/database` also pass) or the
resolved path is not an existing directory; every path genuinely equal
to or under the base directory passes the prefix test, and on success
the returned path becomes the new scope. -/
theorem setCurrentDir_error_iff :
    ∀ (path resolvedTarget : String) (targetIsDir : Bool),
      ((∃ e, setCurrentDir path resolvedTarget targetIsDir = .error e) ↔
        path ≠ "" ∧ (pyStartsWith resolvedTarget DATA_DIR = false ∨
          targetIsDir = false)) ∧
      (specUnderBase resolvedTarget = true →
        pyStartsWith resolvedTarget DATA_DIR = true) := by
  intro path resolvedTarget targetIsDir
  constructor
  · by_cases hp : path = ""
    · simp [setCurrentDir, hp]
    · by_cases hs : pyStartsWith resolvedTarget DATA_DIR
      · by_cases hd : targetIsDir <;> simp [setCurrentDir, hp, hs, hd]
      · simp only [Bool.not_eq_true] at hs
        simp [setCurrentDir, hp, hs]
  · intro h
    simp only [specUnderBase, Bool.or_eq_true, beq_iff_eq] at h
    rcases h with h | h
    · subst h
      exact isPrefixOf_self_chars _
    · exact isPrefixOf_trans_chars (by decide) h

/-- Witness for `setCurrentDir_error_iff` at a concrete in-base path. -/
theorem setCurrentDir_error_iff_witness :
    pyStartsWith "/data/docs" DATA_DIR = true ∧
    ¬ (∃ e, setCurrentDir "docs" "/data/docs" true = .error e) :=
  ⟨(setCurrentDir_error_iff "docs" "/data/docs" true).2 (by decide),
   fun h => by
    have := ((setCurrentDir_error_iff "docs" "/data/docs" true).1.mp h)
    revert this
    decide⟩

/-! ### C3 -/

/-- C3: when the run-exclusion lock is already held, a
`run_indexing_async` invocation's check-and-acquire step (`indexer.py`
149–151) is a no-op — the guard state, including `total_files`,
`processed_files`, `current_file` and `errors`, is returned unchanged
and nothing is reported to the caller (the function just returns) — and
along every event sequence from the initial state at most one run is
ever active. -/
theorem runIndexingAsync_locked_noop_and_exclusive :
    (∀ (g : GuardState) (fullReindex : Bool),
      g.activeRuns ≠ 0 → guardStep g (.start fullReindex) = g) ∧
    (∀ events : List GuardEvent,
      (events.foldl guardStep initGuard).activeRuns ≤ 1) := by
  constructor
  · intro g fullReindex h
    have hb : (g.activeRuns != 0) = true := by simpa using h
    simp [guardStep, hb]
  · have key : ∀ (events : List GuardEvent) (g : GuardState),
        g.activeRuns ≤ 1 → (events.foldl guardStep g).activeRuns ≤ 1 := by
      intro events
      induction events with
      | nil => intro g h; exact h
      | cons e es ih =>
        intro g h
        apply ih
        cases e with
        | start fullReindex =>
          by_cases hz : g.activeRuns = 0
          · simp [guardStep, hz]
          · simpa [guardStep, hz] using h
        | finish => simp only [guardStep]; omega
    intro events
    exact key events initGuard (by decide)

/-- Witness for `runIndexingAsync_locked_noop_and_exclusive`: a second
`start` arriving while a run is active changes nothing. -/
theorem runIndexingAsync_locked_noop_witness :
    guardStep ⟨1, ⟨true, 7, 3, "x.pdf", ["e1"]⟩⟩ (.start true)
        = ⟨1, ⟨true, 7, 3, "x.pdf", ["e1"]⟩⟩ ∧
    (([GuardEvent.start true, GuardEvent.start false,
        GuardEvent.finish]).foldl guardStep initGuard).activeRuns ≤ 1 :=
  ⟨runIndexingAsync_locked_noop_and_exclusive.1 ⟨1, ⟨true, 7, 3, "x.pdf", ["e1"]⟩⟩
      true (by decide),
   runIndexingAsync_locked_noop_and_exclusive.2 _⟩

/-! ### C5 -/

/-- C5: indexing is idempotent on unchanged files: a file whose
`(relative path, fingerprint)` pair already has a record is skipped by
`_index_single_file` with the store and error list unchanged, and a
whole `_run_indexing(False)` pass over files that all already have their
exact records leaves the store unchanged (zero new file, page, or
full-text rows) and records no errors. -/
theorem indexing_idempotent_on_unchanged :
    (∀ (s : Store) (errors : List String) (f : FileInput) (h : String),
      f.hashResult = .ok h → fileAlreadyIndexed s f.relPath h = true →
      indexSingleFile s errors f = .ok (s, errors)) ∧
    (∀ (s : Store) (st : IndexingStatus) (files : List FileInput),
      (∀ f ∈ files, ∃ h, f.hashResult = .ok h ∧
        fileAlreadyIndexed s f.relPath h = true) →
      (runIndexing s st files false).1 = s ∧
      (runIndexing s st files false).2.errors = []) := by
  have single : ∀ (s : Store) (errors : List String) (f : FileInput) (h : String),
      f.hashResult = .ok h → fileAlreadyIndexed s f.relPath h = true →
      indexSingleFile s errors f = .ok (s, errors) := by
    intro s errors f h hh hidx
    simp [indexSingleFile, hh, hidx]
  constructor
  · exact single
  · intro s st files hall
    have key : ∀ (fs : List FileInput) (st' : IndexingStatus),
        (∀ f ∈ fs, ∃ h, f.hashResult = .ok h ∧
          fileAlreadyIndexed s f.relPath h = true) →
        st'.errors = [] →
        (fs.foldl runFileStep (s, st')).1 = s ∧
        (fs.foldl runFileStep (s, st')).2.errors = [] := by
      intro fs
      induction fs with
      | nil => intro st' _ he; exact ⟨rfl, he⟩
      | cons f fs ih =>
        intro st' hall he
        obtain ⟨h, hh, hidx⟩ := hall f (by simp)
        have hstep : runFileStep (s, st') f =
            (s, { st' with current_file := f.name,
                           errors := st'.errors,
                           processed_files := st'.processed_files + 1 }) := by
          simp [runFileStep, single s st'.errors f h hh hidx]
        simp only [List.foldl_cons, hstep]
        exact ih _ (fun g hg => hall g (by simp [hg])) he
    have hres := key files
        { st with errors := [], total_files := files.length,
                  processed_files := 0 } hall rfl
    constructor
    · simpa [runIndexing] using hres.1
    · simpa [runIndexing] using hres.2

/-- Witness for `indexing_idempotent_on_unchanged`: a store already
holding `(a.pdf, h1)` is left unchanged by a run over that file. -/
theorem indexing_idempotent_witness :
    indexSingleFile ⟨[⟨1, "a.pdf", "h1"⟩], [], [], 2, 1⟩ []
        ⟨"a.pdf", "a.pdf", .ok "h1", .pages []⟩
      = .ok (⟨[⟨1, "a.pdf", "h1"⟩], [], [], 2, 1⟩, []) ∧
    (runIndexing ⟨[⟨1, "a.pdf", "h1"⟩], [], [], 2, 1⟩ initStatus
        [⟨"a.pdf", "a.pdf", .ok "h1", .pages []⟩] false).1
      = ⟨[⟨1, "a.pdf", "h1"⟩], [], [], 2, 1⟩ :=
  ⟨indexing_idempotent_on_unchanged.1 _ [] _ "h1" rfl (by decide),
   (indexing_idempotent_on_unchanged.2 _ initStatus _
      (by intro f hf; simp at hf; subst hf; exact ⟨"h1", rfl, by decide⟩)).1⟩

/-! ### C8 -/

/-- C8: per page, native extraction is consulted first and OCR is
invoked iff the stripped native text is strictly shorter than
`MIN_TEXT_LENGTH = 50`: when the native text is long enough the stored
text is the native text and the OCR result is never consulted (the page
text is independent of it), when it is too short the OCR result is used;
a page whose native text has length 80 is stored without OCR. -/
theorem ocr_fallback_policy :
    (∀ (native : Option String) (ocrA ocrB : String),
      (MIN_TEXT_LENGTH ≤ (extractTextPdfplumber native).length →
        ocrNeeded native = false ∧
        pageText native ocrA = extractTextPdfplumber native) ∧
      ((extractTextPdfplumber native).length < MIN_TEXT_LENGTH →
        ocrNeeded native = true ∧ pageText native ocrA = ocrA) ∧
      (ocrNeeded native = false →
        pageText native ocrA = pageText native ocrB)) ∧
    (ocrNeeded (some
        "mmmmmmmmmmmmmmmmmmmmmmmmmmmmmmmmmmmmmmmmmmmmmmmmmmmmmmmmmmmmmmmmmmmmmmmmmmmmmmmm")
        = false ∧
      pageStored (some
        "mmmmmmmmmmmmmmmmmmmmmmmmmmmmmmmmmmmmmmmmmmmmmmmmmmmmmmmmmmmmmmmmmmmmmmmmmmmmmmmm")
        "" = true ∧
      pageText (some
        "mmmmmmmmmmmmmmmmmmmmmmmmmmmmmmmmmmmmmmmmmmmmmmmmmmmmmmmmmmmmmmmmmmmmmmmmmmmmmmmm")
        "ocr result"
        = "mmmmmmmmmmmmmmmmmmmmmmmmmmmmmmmmmmmmmmmmmmmmmmmmmmmmmmmmmmmmmmmmmmmmmmmmmmmmmmmm") := by
  constructor
  · intro native ocrA ocrB
    refine ⟨?_, ?_, ?_⟩
    · intro h
      have hn : ¬ (extractTextPdfplumber native).length < MIN_TEXT_LENGTH :=
        Nat.not_lt.mpr h
      constructor
      · simp [ocrNeeded, hn]
      · simp [pageText, hn]
    · intro h
      constructor
      · simp [ocrNeeded, h]
      · simp [pageText, h]
    · intro h
      have hn : ¬ (extractTextPdfplumber native).length < MIN_TEXT_LENGTH := by
        simpa [ocrNeeded] using h
      simp [pageText, hn]
  · refine ⟨by decide, by decide, by decide⟩

/-- Witness for `ocr_fallback_policy`: a 10-character native text
triggers OCR, a 50-character one does not. -/
theorem ocr_fallback_policy_witness :
    (ocrNeeded (some "aaaaaaaaaa") = true ∧
      pageText (some "aaaaaaaaaa") "the ocr text" = "the ocr text") ∧
    (ocrNeeded (some "bbbbbbbbbbbbbbbbbbbbbbbbbbbbbbbbbbbbbbbbbbbbbbbbbb") = false ∧
      pageText (some "bbbbbbbbbbbbbbbbbbbbbbbbbbbbbbbbbbbbbbbbbbbbbbbbbb") "x"
        = extractTextPdfplumber
            (some "bbbbbbbbbbbbbbbbbbbbbbbbbbbbbbbbbbbbbbbbbbbbbbbbbb")) :=
  ⟨((ocr_fallback_policy.1 (some "aaaaaaaaaa") "the ocr text" "y").2.1
      (by decide)),
   by
    have h := (ocr_fallback_policy.1
        (some "bbbbbbbbbbbbbbbbbbbbbbbbbbbbbbbbbbbbbbbbbbbbbbbbbb") "x" "y").1
        (by decide)
    exact ⟨h.1, h.2⟩⟩

/-! ### C9 -/

/-- C9: with a non-empty highlight query, every extracted word whose
lower-cased text contains some query term of length ≥ 2 (lower-cased, as
a substring) receives a highlight rectangle with corners
`(x0·SCALE − 2, top·SCALE − 2)` and `(x1·SCALE + 2, bottom·SCALE + 2)`,
`SCALE = 150/72`; a word at text-layer box (100,100)-(150,120) maps to
pixel box `((100·150/72)−2, (100·150/72)−2)-((150·150/72)+2,
(120·150/72)+2)`. -/
theorem highlight_rect_mapping :
    (∀ (query : String) (words : List Word) (w : Word) (term : String),
      query ≠ "" → w ∈ words →
      term ∈ pySplit query → 2 ≤ term.length →
      hasSubstr (pyLower term).data (pyLower w.text).data = true →
      (⟨w.x0 * SCALE - 2, w.top * SCALE - 2,
        w.x1 * SCALE + 2, w.bottom * SCALE + 2⟩ : HRect)
        ∈ highlightRects query words) ∧
    highlightRects "beta" [⟨"beta", 100, 100, 150, 120⟩]
      = [⟨100 * (150 / 72) - 2, 100 * (150 / 72) - 2,
          150 * (150 / 72) + 2, 120 * (150 / 72) + 2⟩] := by
  constructor
  · intro query words w term hq hw hterm hlen hsub
    have hmem : pyLower term ∈ queryTerms query := by
      simp only [queryTerms, List.mem_map, List.mem_filter]
      exact ⟨term, ⟨hterm, by simpa using hlen⟩, rfl⟩
    have hmatch : wordMatches (queryTerms query) w.text = true := by
      simp only [wordMatches, List.any_eq_true]
      exact ⟨pyLower term, hmem, hsub⟩
    simp only [highlightRects, if_neg hq, List.mem_map]
    exact ⟨w, List.mem_filter.mpr ⟨hw, hmatch⟩, rfl⟩
  · have hq : ("beta" : String) ≠ "" := by decide
    have hm : wordMatches (queryTerms "beta") "beta" = true := by decide
    simp only [highlightRects, if_neg hq, List.filter, List.map]
    norm_num [hm, highlightRect, SCALE, DPI]

/-- Witness for `highlight_rect_mapping`: the concrete word/query pair
of the claim. -/
theorem highlight_rect_mapping_witness :
    (⟨100 * SCALE - 2, 100 * SCALE - 2, 150 * SCALE + 2, 120 * SCALE + 2⟩ : HRect)
      ∈ highlightRects "beta" [⟨"beta", 100, 100, 150, 120⟩] :=
  highlight_rect_mapping.1 "beta" [⟨"beta", 100, 100, 150, 120⟩]
    ⟨"beta", 100, 100, 150, 120⟩ "beta" (by decide) (by simp) (by decide)
    (by decide) (by decide)

/-! ### C6 -/

/-- The error list produced by the page loop of `_index_single_file`:
unchanged when no page step raises, extended by exactly
`"<relPath>: <msg>"` for the first raising step. -/
lemma indexPages_errors_eq : ∀ (steps : List PageStep) (s : Store)
    (errors : List String) (relPath : String) (fid pn : Nat),
    (pagesFailure steps = none →
      (indexPages s errors relPath fid pn steps).2 = errors) ∧
    (∀ msg, pagesFailure steps = some msg →
      (indexPages s errors relPath fid pn steps).2
        = errors ++ [relPath ++ ": " ++ msg]) := by
  intro steps
  induction steps with
  | nil =>
    intro s errors relPath fid pn
    exact ⟨fun _ => rfl, fun msg h => Option.noConfusion h⟩
  | cons st rest ih =>
    intro s errors relPath fid pn
    cases st with
    | err m =>
      refine ⟨fun h => Option.noConfusion h, fun msg h => ?_⟩
      have hm : m = msg := by
        simpa [pagesFailure, abortStep] using h
      subst hm
      rfl
    | text native ocr storeFail =>
      cases storeFail with
      | none =>
        have hunfold : indexPages s errors relPath fid pn
            (PageStep.text native ocr none :: rest)
            = if (pageText native ocr).isEmpty
              then indexPages s errors relPath fid (pn + 1) rest
              else indexPages (storePageOk s fid pn (pageText native ocr))
                errors relPath fid (pn + 1) rest := rfl
        have hpf : pagesFailure (PageStep.text native ocr none :: rest)
            = pagesFailure rest := rfl
        rw [hunfold, hpf]
        by_cases ht : (pageText native ocr).isEmpty
        · rw [if_pos ht]
          exact ih s errors relPath fid (pn + 1)
        · rw [if_neg ht]
          exact ih (storePageOk s fid pn (pageText native ocr)) errors relPath
            fid (pn + 1)
      | some m =>
        have hunfold : indexPages s errors relPath fid pn
            (PageStep.text native ocr (some m) :: rest)
            = if (pageText native ocr).isEmpty
              then indexPages s errors relPath fid (pn + 1) rest
              else (s, errors ++ [relPath ++ ": " ++ m]) := rfl
        rw [hunfold]
        by_cases ht : (pageText native ocr).isEmpty
        · have hpf : pagesFailure (PageStep.text native ocr (some m) :: rest)
              = pagesFailure rest := by
            simp [pagesFailure, abortStep, ht]
          rw [if_pos ht, hpf]
          exact ih s errors relPath fid (pn + 1)
        · have hpf : pagesFailure (PageStep.text native ocr (some m) :: rest)
              = some m := by
            simp [pagesFailure, abortStep, ht]
          rw [if_neg ht, hpf]
          refine ⟨fun h => Option.noConfusion h, fun msg h => ?_⟩
          have hm : m = msg := by
            simpa using h
          subst hm
          rfl

/-- C6 counterexample: a per-file failure that escapes
`_index_single_file` — here a hashing error for a file in a
subdirectory — is recorded by `_run_indexing` as
`"<pdf_path.name>: <message>"` with the *base name*, not the path
relative to the active root: the recorded entry does not even start with
the relative path `sub/a.pdf`. -/
theorem run_error_uses_basename_cex :
    (runIndexing emptyStore initStatus
        [⟨"sub/a.pdf", "a.pdf", .error "boom", .pages []⟩] false).2.errors
      = ["a.pdf: boom"] ∧
    pyStartsWith "a.pdf: boom" "sub/a.pdf" = false := by
  exact ⟨by decide, by decide⟩

/-- C6 amended: every per-file failure during a run is caught and
appended to the run's error list as `"<path>: <message>"`, and a file
with no failure appends nothing; `<path>` is the path relative to the
active root exactly for failures caught inside `_index_single_file`
(`FileFailure.handled`: extraction and page-store errors), and the
file's *base name* exactly for failures that escape it
(`FileFailure.escaped`: hashing and file-record store errors).
Processing always continues with the next file (`processed_files` is
bumped for every file, and a whole run processes every listed file), and
`_run_indexing` never raises a per-file error to its caller (it is a
total function into store × status). -/
theorem run_error_recording :
    (∀ (acc : Store × IndexingStatus) (f : FileInput),
      (runFileStep acc f).2.processed_files = acc.2.processed_files + 1 ∧
      (runFileStep acc f).2.errors
        = acc.2.errors ++
          (match fileFailure acc.1 f with
           | none => []
           | some (.handled msg) => [f.relPath ++ ": " ++ msg]
           | some (.escaped msg) => [f.name ++ ": " ++ msg])) ∧
    (∀ (s : Store) (st : IndexingStatus) (files : List FileInput)
      (fullReindex : Bool),
      (runIndexing s st files fullReindex).2.processed_files
        = files.length) := by
  have step : ∀ (acc : Store × IndexingStatus) (f : FileInput),
      (runFileStep acc f).2.processed_files = acc.2.processed_files + 1 ∧
      (runFileStep acc f).2.errors
        = acc.2.errors ++
          (match fileFailure acc.1 f with
           | none => []
           | some (.handled msg) => [f.relPath ++ ": " ++ msg]
           | some (.escaped msg) => [f.name ++ ": " ++ msg]) := by
    intro acc f
    obtain ⟨s, st⟩ := acc
    cases hh : f.hashResult with
    | error msg =>
      refine ⟨by simp [runFileStep, indexSingleFile, hh], ?_⟩
      simp [runFileStep, indexSingleFile, fileFailure, hh]
    | ok h =>
      by_cases hidx : fileAlreadyIndexed s f.relPath h = true
      · refine ⟨by simp [runFileStep, indexSingleFile, hh, hidx], ?_⟩
        simp [runFileStep, indexSingleFile, fileFailure, hh, hidx]
      · cases hb : f.body with
        | storeFileErr msg =>
          refine ⟨by simp [runFileStep, indexSingleFile, hh, hidx, hb], ?_⟩
          simp [runFileStep, indexSingleFile, fileFailure, hh, hidx, hb]
        | pages steps =>
          refine ⟨by simp [runFileStep, indexSingleFile, hh, hidx, hb], ?_⟩
          have hIP := indexPages_errors_eq steps (storeFile s f.relPath h).2
              st.errors f.relPath (storeFile s f.relPath h).1 1
          cases hpf : pagesFailure steps with
          | none =>
            have he := hIP.1 hpf
            simp [runFileStep, indexSingleFile, fileFailure, hh, hidx, hb,
              hpf, he]
          | some msg =>
            have he := hIP.2 msg hpf
            simp [runFileStep, indexSingleFile, fileFailure, hh, hidx, hb,
              hpf, he]
  refine ⟨step, ?_⟩
  have key : ∀ (fs : List FileInput) (acc : Store × IndexingStatus),
      (fs.foldl runFileStep acc).2.processed_files
        = acc.2.processed_files + fs.length := by
    intro fs
    induction fs with
    | nil => intro acc; simp
    | cons f fs ih =>
      intro acc
      simp only [List.foldl_cons, List.length_cons, ih (runFileStep acc f),
        (step acc f).1]
      omega
  intro s st files fullReindex
  simp [runIndexing, key]

/-! ### C1 -/

/-- When the page loop of a fresh file aborts at its first exception —
an extraction/OCR error (`.err`) or a `store_page` failure on a page
with non-empty text (`.text _ _ (some msg)`) — the error is recorded
with the relative path, the rows committed so far (the pages stored
before the failure) stay committed, and nothing else changes. -/
lemma indexPages_abort_commits : ∀ (good : List PageStep),
    (∀ st ∈ good, goodStep st = true) →
    ∀ (bad : PageStep) (msg : String), abortStep bad = some msg →
    ∀ (s : Store) (errors : List String) (relPath : String) (fid pn : Nat)
      (rest : List PageStep),
    (indexPages s errors relPath fid pn (good ++ bad :: rest)).2
        = errors ++ [relPath ++ ": " ++ msg] ∧
    (indexPages s errors relPath fid pn (good ++ bad :: rest)).1.files
        = s.files ∧
    (indexPages s errors relPath fid pn (good ++ bad :: rest)).1.pages.length
        = s.pages.length + good.countP stepStores := by
  intro good
  induction good with
  | nil =>
    intro _ bad msg hab s errors relPath fid pn rest
    cases bad with
    | err m =>
      have hm : m = msg := by
        simpa [abortStep] using hab
      subst hm
      exact ⟨rfl, rfl, rfl⟩
    | text native ocr storeFail =>
      cases storeFail with
      | none => simp [abortStep] at hab
      | some m =>
        by_cases ht : (pageText native ocr).isEmpty
        · simp [abortStep, ht] at hab
        · have hm : m = msg := by
            simpa [abortStep, ht] using hab
          subst hm
          have hunfold : indexPages s errors relPath fid pn
              (PageStep.text native ocr (some m) :: rest)
              = if (pageText native ocr).isEmpty
                then indexPages s errors relPath fid (pn + 1) rest
                else (s, errors ++ [relPath ++ ": " ++ m]) := rfl
          rw [List.nil_append, hunfold, if_neg ht]
          exact ⟨rfl, rfl, rfl⟩
  | cons st gs ih =>
    intro hgood bad msg hab s errors relPath fid pn rest
    have hst := hgood st (by simp)
    have hrest : ∀ x ∈ gs, goodStep x = true := fun x hx =>
      hgood x (by simp [hx])
    cases st with
    | err m => simp [goodStep] at hst
    | text native ocr storeFail =>
      cases storeFail with
      | some m => simp [goodStep] at hst
      | none =>
        have hunfold : indexPages s errors relPath fid pn
            (PageStep.text native ocr none :: (gs ++ bad :: rest))
            = if (pageText native ocr).isEmpty
              then indexPages s errors relPath fid (pn + 1) (gs ++ bad :: rest)
              else indexPages (storePageOk s fid pn (pageText native ocr))
                errors relPath fid (pn + 1) (gs ++ bad :: rest) :=
          rfl
        rw [List.cons_append, hunfold]
        by_cases ht : (pageText native ocr).isEmpty
        · rw [if_pos ht]
          rcases ih hrest bad msg hab s errors relPath fid (pn + 1) rest
            with ⟨h1, h2, h3⟩
          refine ⟨h1, h2, ?_⟩
          rw [h3, List.countP_cons]
          have hs0 : stepStores (PageStep.text native ocr none) = false := by
            simp [stepStores, pageStored, ht]
          simp [hs0]
        · rw [if_neg ht]
          rcases ih hrest bad msg hab
              (storePageOk s fid pn (pageText native ocr)) errors
              relPath fid (pn + 1) rest with ⟨h1, h2, h3⟩
          have hfiles : (storePageOk s fid pn (pageText native ocr)).files
              = s.files := rfl
          have hlen : (storePageOk s fid pn (pageText native ocr)).pages.length
              = s.pages.length + 1 := by
            simp [storePageOk, storePage]
          refine ⟨h1, by rw [h2, hfiles], ?_⟩
          rw [h3, hlen, List.countP_cons]
          have hs1 : stepStores (PageStep.text native ocr none) = true := by
            simp [stepStores, pageStored, ht]
          simp [hs1]
          omega

/-- C1 counterexample: indexing a fresh two-page file whose second page
raises an extraction error records the failure in the run's error list,
yet the store *does* keep the file record for `("a.pdf", "h1")` (a later
run would skip the file as already indexed) and the page committed
before the failure — the claimed "no file record and no page records
remain" is false. -/
theorem failed_file_still_committed_cex :
    (runIndexing emptyStore initStatus
        [⟨"a.pdf", "a.pdf", .ok "h1",
          .pages [.text (some "xxxxxxxxxxxxxxxxxxxxxxxxxxxxxxxxxxxxxxxxxxxxxxxxxx")
              "" none,
            .err "bad page"]⟩] false).2.errors
      = ["a.pdf: bad page"] ∧
    fileAlreadyIndexed
      (runIndexing emptyStore initStatus
        [⟨"a.pdf", "a.pdf", .ok "h1",
          .pages [.text (some "xxxxxxxxxxxxxxxxxxxxxxxxxxxxxxxxxxxxxxxxxxxxxxxxxx")
              "" none,
            .err "bad page"]⟩] false).1 "a.pdf" "h1" = true ∧
    (runIndexing emptyStore initStatus
        [⟨"a.pdf", "a.pdf", .ok "h1",
          .pages [.text (some "xxxxxxxxxxxxxxxxxxxxxxxxxxxxxxxxxxxxxxxxxxxxxxxxxx")
              "" none,
            .err "bad page"]⟩] false).1.pages.length = 1 := by
  exact ⟨by decide, by decide, by decide⟩

/-- C1 amended: when indexing of a not-yet-indexed file fails partway
with an extraction error or a page-store error (any aborting page step,
`abortStep bad = some msg`), the failure is recorded in the run's error
list as `"<relPath>: <msg>"`, but the file's partial data *is*
committed: the store keeps the file record for `(path, fingerprint)` —
so the file is treated as already indexed by subsequent runs — together
with exactly the pages stored before the failure. -/
theorem partial_file_data_committed :
    ∀ (s : Store) (errors : List String) (relPath name fileHash msg : String)
      (good : List PageStep) (bad : PageStep) (rest : List PageStep),
      fileAlreadyIndexed s relPath fileHash = false →
      (∀ st ∈ good, goodStep st = true) →
      abortStep bad = some msg →
      ∃ s', indexSingleFile s errors
          ⟨relPath, name, .ok fileHash, .pages (good ++ bad :: rest)⟩
          = .ok (s', errors ++ [relPath ++ ": " ++ msg]) ∧
        fileAlreadyIndexed s' relPath fileHash = true ∧
        s'.files = s.files ++ [⟨s.nextFileId, relPath, fileHash⟩] ∧
        s'.pages.length = s.pages.length + good.countP stepStores := by
  intro s errors relPath name fileHash msg good bad rest hidx hgood hab
  rcases indexPages_abort_commits good hgood bad msg hab
      (storeFile s relPath fileHash).2 errors relPath
      (storeFile s relPath fileHash).1 1 rest with ⟨h1, h2, h3⟩
  refine ⟨(indexPages (storeFile s relPath fileHash).2 errors relPath
      (storeFile s relPath fileHash).1 1 (good ++ bad :: rest)).1,
    ?_, ?_, ?_, ?_⟩
  · rw [← h1]
    simp [indexSingleFile, hidx]
  · rw [fileAlreadyIndexed, h2]
    simp [storeFile]
  · rw [h2]; rfl
  · rw [h3]; rfl

/-- Witness for `partial_file_data_committed`: a fresh file whose first
page stores fine and whose second page fails — once with an extraction
error and once with a `store_page` error. -/
theorem partial_file_data_committed_witness :
    (∃ s', indexSingleFile emptyStore [] ⟨"a.pdf", "a.pdf", .ok "h1",
        .pages ([.text (some "xxxxxxxxxxxxxxxxxxxxxxxxxxxxxxxxxxxxxxxxxxxxxxxxxx")
            "" none] ++ PageStep.err "boom" :: [])⟩
        = .ok (s', [] ++ ["a.pdf" ++ ": " ++ "boom"]) ∧
      fileAlreadyIndexed s' "a.pdf" "h1" = true ∧
      s'.files = emptyStore.files ++ [⟨emptyStore.nextFileId, "a.pdf", "h1"⟩] ∧
      s'.pages.length = emptyStore.pages.length
        + ([PageStep.text (some "xxxxxxxxxxxxxxxxxxxxxxxxxxxxxxxxxxxxxxxxxxxxxxxxxx")
            "" none]).countP stepStores) ∧
    (∃ s', indexSingleFile emptyStore [] ⟨"b.pdf", "b.pdf", .ok "h2",
        .pages ([.text (some "xxxxxxxxxxxxxxxxxxxxxxxxxxxxxxxxxxxxxxxxxxxxxxxxxx")
            "" none] ++ PageStep.text
              (some "xxxxxxxxxxxxxxxxxxxxxxxxxxxxxxxxxxxxxxxxxxxxxxxxxx")
              "" (some "disk full") :: [])⟩
        = .ok (s', [] ++ ["b.pdf" ++ ": " ++ "disk full"]) ∧
      fileAlreadyIndexed s' "b.pdf" "h2" = true ∧
      s'.files = emptyStore.files ++ [⟨emptyStore.nextFileId, "b.pdf", "h2"⟩] ∧
      s'.pages.length = emptyStore.pages.length
        + ([PageStep.text (some "xxxxxxxxxxxxxxxxxxxxxxxxxxxxxxxxxxxxxxxxxxxxxxxxxx")
            "" none]).countP stepStores) :=
  ⟨partial_file_data_committed emptyStore [] "a.pdf" "a.pdf" "h1" "boom"
      [.text (some "xxxxxxxxxxxxxxxxxxxxxxxxxxxxxxxxxxxxxxxxxxxxxxxxxx") "" none]
      (.err "boom") []
      (by decide) (by decide) (by decide),
   partial_file_data_committed emptyStore [] "b.pdf" "b.pdf" "h2" "disk full"
      [.text (some "xxxxxxxxxxxxxxxxxxxxxxxxxxxxxxxxxxxxxxxxxxxxxxxxxx") "" none]
      (.text (some "xxxxxxxxxxxxxxxxxxxxxxxxxxxxxxxxxxxxxxxxxxxxxxxxxx") ""
        (some "disk full")) []
      (by decide) (by decide) (by decide)⟩

/-! ### C4 -/

/-- Distinct page rows of a store with pairwise-distinct ids have
distinct ids. -/
lemma pages_id_inj (s : Store)
    (hPw : s.pages.Pairwise (fun p q => p.id ≠ q.id)) :
    ∀ {a b : PageRecord}, a ∈ s.pages → b ∈ s.pages → a ≠ b →
      a.id ≠ b.id := by
  intro a b ha hb hne
  exact List.Pairwise.forall (fun _ _ h => Ne.symm h) hPw ha hb hne

lemma ftsPaired_intro {s : Store}
    (h1 : ∀ p ∈ s.pages, ftsCount s p.id = 1)
    (h2 : ∀ e ∈ s.fts, ∃ p ∈ s.pages, p.id = e.rowid) : ftsPaired s :=
  ⟨h1, h2⟩

lemma storeWF_intro {s : Store}
    (h1 : ∀ p ∈ s.pages, p.id < s.nextPageId)
    (h2 : ∀ e ∈ s.fts, e.rowid < s.nextPageId)
    (h3 : ∀ f ∈ s.files, f.id < s.nextFileId)
    (h4 : s.pages.Pairwise (fun p q => p.id ≠ q.id)) : Store.WF s :=
  ⟨h1, h2, h3, h4⟩

/-- C4: the invariant "every page row has exactly one full-text entry
keyed to its id, and no full-text entry outlives its page row"
(`ftsPaired`) is preserved by every store write: `store_file` (which
touches neither pages nor fts), `store_page` (whose two INSERTs commit
together — on success exactly one page row and one fts entry are added,
while an injected failure of either INSERT rolls the transaction back,
leaving the store exactly as it was), `delete_file_by_name` (which
removes the found file's pages and their fts entries together with the
file record), and `clear_index`; well-formedness is preserved
alongside. -/
theorem store_ops_preserve_page_fts_pairing :
    ∀ s : Store, Store.WF s → ftsPaired s →
      (∀ filename fileHash,
        Store.WF (storeFile s filename fileHash).2 ∧
        ftsPaired (storeFile s filename fileHash).2) ∧
      (∀ fileId pageNumber content failPages failFts,
        ((storePage s fileId pageNumber content failPages failFts).2 = none →
          Store.WF (storePage s fileId pageNumber content failPages failFts).1 ∧
          ftsPaired (storePage s fileId pageNumber content failPages failFts).1 ∧
          (storePage s fileId pageNumber content failPages failFts).1.pages.length
            = s.pages.length + 1 ∧
          (storePage s fileId pageNumber content failPages failFts).1.fts.length
            = s.fts.length + 1) ∧
        ((storePage s fileId pageNumber content failPages failFts).2 ≠ none →
          (storePage s fileId pageNumber content failPages failFts).1 = s)) ∧
      (∀ filename,
        Store.WF (deleteFileByName s filename) ∧
        ftsPaired (deleteFileByName s filename) ∧
        (∀ f, s.files.find? (fun g => g.filename == filename) = some f →
          (∀ p ∈ (deleteFileByName s filename).pages, p.fileId ≠ f.id) ∧
          (∀ g ∈ (deleteFileByName s filename).files, g.id ≠ f.id))) ∧
      (Store.WF (clearIndex s) ∧ ftsPaired (clearIndex s)) := by
  intro s hWF hP
  obtain ⟨hPg, hFts, hFl, hPw⟩ := hWF
  obtain ⟨hCnt, hOwn⟩ := hP
  refine ⟨?_, ?_, ?_, ?_⟩
  · -- store_file
    intro filename fileHash
    constructor
    · refine storeWF_intro hPg hFts ?_ hPw
      intro f hf
      simp only [storeFile] at hf
      rcases List.mem_append.mp hf with h | h
      · exact Nat.lt_succ_of_lt (hFl f h)
      · rw [List.mem_singleton.mp h]
        exact Nat.lt_succ_self _
    · exact ftsPaired_intro hCnt hOwn
  · -- store_page
    intro fileId pageNumber content failPages failFts
    cases failPages with
    | some msg =>
      exact ⟨fun h => by simp [storePage] at h, fun _ => rfl⟩
    | none =>
      cases failFts with
      | some msg =>
        exact ⟨fun h => by simp [storePage] at h, fun _ => rfl⟩
      | none =>
        refine ⟨fun _ => ?_, fun h => absurd rfl h⟩
        have hs2 : (storePage s fileId pageNumber content none none).1
            = { s with
                pages := s.pages
                  ++ [⟨s.nextPageId, fileId, pageNumber, content⟩],
                fts := s.fts ++ [⟨s.nextPageId, content⟩],
                nextPageId := s.nextPageId + 1 } := rfl
        rw [hs2]
        refine ⟨storeWF_intro ?_ ?_ hFl ?_, ftsPaired_intro ?_ ?_,
          by simp, by simp⟩
        · intro p hp
          rcases List.mem_append.mp hp with h | h
          · exact Nat.lt_succ_of_lt (hPg p h)
          · rw [List.mem_singleton.mp h]
            exact Nat.lt_succ_self _
        · intro e he
          rcases List.mem_append.mp he with h | h
          · exact Nat.lt_succ_of_lt (hFts e h)
          · rw [List.mem_singleton.mp h]
            exact Nat.lt_succ_self _
        · rw [List.pairwise_append]
          refine ⟨hPw, by simp, ?_⟩
          intro a ha b hb
          rw [List.mem_singleton.mp hb]
          exact Nat.ne_of_lt (hPg a ha)
        · intro p hp
          rcases List.mem_append.mp hp with h | h
          · have hne : (s.nextPageId == p.id) = false := by
              simp [Nat.ne_of_gt (hPg p h)]
            show ((s.fts ++ ([⟨s.nextPageId, content⟩] : List FtsEntry)).filter
                (fun e : FtsEntry => e.rowid == p.id)).length = 1
            rw [List.filter_append]
            simp only [List.filter_cons, List.filter_nil, hne,
              Bool.false_eq_true, if_false, List.append_nil]
            exact hCnt p h
          · rw [List.mem_singleton.mp h]
            show ((s.fts ++ ([⟨s.nextPageId, content⟩] : List FtsEntry)).filter
                (fun e : FtsEntry => e.rowid == s.nextPageId)).length = 1
            rw [List.filter_append]
            have hnil : s.fts.filter (fun e => e.rowid == s.nextPageId)
                = [] := by
              refine List.filter_eq_nil_iff.mpr ?_
              intro e he
              simp [Nat.ne_of_lt (hFts e he)]
            rw [hnil]
            simp
        · intro e he
          rcases List.mem_append.mp he with h | h
          · obtain ⟨p, hp, hpe⟩ := hOwn e h
            exact ⟨p, List.mem_append_left _ hp, hpe⟩
          · refine ⟨⟨s.nextPageId, fileId, pageNumber, content⟩,
              List.mem_append_right _ (by simp), ?_⟩
            rw [List.mem_singleton.mp h]
  · -- delete_file_by_name
    intro filename
    cases hf : s.files.find? (fun g => g.filename == filename) with
    | none =>
      have hid : deleteFileByName s filename = s := by
        simp [deleteFileByName, hf]
      rw [hid]
      exact ⟨storeWF_intro hPg hFts hFl hPw, ftsPaired_intro hCnt hOwn,
        fun f h => Option.noConfusion h⟩
    | some f =>
      have hdel : deleteFileByName s filename
          = { s with
              fts := s.fts.filter (fun e =>
                !(((s.pages.filter (fun p => p.fileId == f.id)).map
                    (fun p => p.id)).contains e.rowid)),
              pages := s.pages.filter (fun p => !(p.fileId == f.id)),
              files := s.files.filter (fun g => !(g.id == f.id)) } := by
        simp [deleteFileByName, hf]
      have hcontains : ∀ i,
          (((s.pages.filter (fun p => p.fileId == f.id)).map
              (fun p => p.id)).contains i) = true ↔
            ∃ q ∈ s.pages, (q.fileId == f.id) = true ∧ q.id = i := by
        intro i
        constructor
        · intro h
          have hmem : i ∈ (s.pages.filter (fun p => p.fileId == f.id)).map
              (fun p => p.id) := List.elem_iff.mp h
          simp only [List.mem_map, List.mem_filter] at hmem
          obtain ⟨q, ⟨hq, hqf⟩, hqi⟩ := hmem
          exact ⟨q, hq, hqf, hqi⟩
        · intro hex
          obtain ⟨q, hq, hqf, hqi⟩ := hex
          refine List.elem_iff.mpr ?_
          simp only [List.mem_map, List.mem_filter]
          exact ⟨q, ⟨hq, hqf⟩, hqi⟩
      have hkeep : ∀ p ∈ s.pages, (p.fileId == f.id) = false →
          (((s.pages.filter (fun p => p.fileId == f.id)).map
              (fun p => p.id)).contains p.id) = false := by
        intro p hp hpf
        cases hc : (((s.pages.filter (fun p => p.fileId == f.id)).map
            (fun p => p.id)).contains p.id) with
        | false => rfl
        | true =>
          obtain ⟨q, hq, hqf, hqi⟩ := (hcontains p.id).mp hc
          have hne : q ≠ p := by
            intro he
            have hpt : (p.fileId == f.id) = true := he ▸ hqf
            rw [hpt] at hpf
            cases hpf
          exact absurd hqi (pages_id_inj s hPw hq hp hne)
      rw [hdel]
      refine ⟨storeWF_intro ?_ ?_ ?_ ?_, ftsPaired_intro ?_ ?_, ?_⟩
      · intro p hp
        exact hPg p (List.mem_filter.mp hp).1
      · intro e he
        exact hFts e (List.mem_filter.mp he).1
      · intro g hg
        exact hFl g (List.mem_filter.mp hg).1
      · exact List.Pairwise.sublist (List.filter_sublist _) hPw
      · intro p hp
        obtain ⟨hp', hpkeep⟩ := List.mem_filter.mp hp
        have hpf : (p.fileId == f.id) = false := by
          simpa using hpkeep
        show ((s.fts.filter (fun e =>
            !(((s.pages.filter (fun p => p.fileId == f.id)).map
                (fun p => p.id)).contains e.rowid))).filter
            (fun e => e.rowid == p.id)).length = 1
        rw [List.filter_filter]
        rw [List.filter_congr (fun e he => ?_)]
        · exact hCnt p hp'
        · cases hei : (e.rowid == p.id) with
          | false => simp
          | true =>
            have heq : e.rowid = p.id := by simpa using hei
            rw [heq, hkeep p hp' hpf]
            simp
      · intro e he
        obtain ⟨he', hek⟩ := List.mem_filter.mp he
        obtain ⟨p, hp, hpe⟩ := hOwn e he'
        have hkf : (p.fileId == f.id) = false := by
          cases hpq : (p.fileId == f.id) with
          | false => rfl
          | true =>
            have hco : (((s.pages.filter (fun p => p.fileId == f.id)).map
                (fun p => p.id)).contains e.rowid) = true :=
              (hcontains e.rowid).mpr ⟨p, hp, hpq, hpe⟩
            rw [hco] at hek
            simp at hek
        exact ⟨p, List.mem_filter.mpr ⟨hp, by rw [hkf]; rfl⟩, hpe⟩
      · intro f' h
        injection h with h'
        subst h'
        constructor
        · intro p hp
          have hm := (List.mem_filter.mp hp).2
          simpa using hm
        · intro g hg
          have hm := (List.mem_filter.mp hg).2
          simpa using hm
  · -- clear_index
    constructor
    · exact storeWF_intro (fun p hp => (List.not_mem_nil p hp).elim)
        (fun e he => (List.not_mem_nil e he).elim)
        (fun g hg => (List.not_mem_nil g hg).elim) List.Pairwise.nil
    · exact ftsPaired_intro (fun p hp => (List.not_mem_nil p hp).elim)
        (fun e he => (List.not_mem_nil e he).elim)

/-- Witness for `store_ops_preserve_page_fts_pairing` on the empty
store. -/
theorem store_ops_preserve_page_fts_pairing_witness :
    ftsPaired (storePage emptyStore 1 1 "hello" none none).1 ∧
    ftsPaired (deleteFileByName emptyStore "a.pdf") :=
  have hwf : Store.WF emptyStore :=
    storeWF_intro (fun p hp => (List.not_mem_nil p hp).elim)
      (fun e he => (List.not_mem_nil e he).elim)
      (fun g hg => (List.not_mem_nil g hg).elim) List.Pairwise.nil
  have hp : ftsPaired emptyStore :=
    ftsPaired_intro (fun p hp => (List.not_mem_nil p hp).elim)
      (fun e he => (List.not_mem_nil e he).elim)
  ⟨(((store_ops_preserve_page_fts_pairing emptyStore hwf hp).2.1
      1 1 "hello" none none).1 rfl).2.1,
   ((store_ops_preserve_page_fts_pairing emptyStore hwf hp).2.2.1 "a.pdf").2.1⟩
